import Mathlib

/-!
Verification of the article data-access layer of the
tech-blog-aggregator CMS.

Shallow embedding of `src/services/articleService.ts` and the remote
document-store contract it consumes.  The service code is translated
definition-by-definition from the TypeScript source; the remote store
(`blink.db`) is not part of the repository's sources, so its `list` /
`create` / `update` / `delete` operations are modelled from the spec's
external-interface contract (§6).  JavaScript primitives used by the
service (string truthiness in `a || b`, `JSON.stringify` / `JSON.parse`,
`Number(…) > 0`) are modelled as explicit Lean functions.
-/

namespace BlogCms

/-! Section: JSON values

`JSON.parse` / `JSON.stringify` are ECMAScript builtins used by the
service for the `tags` column.  We model JSON values as an inductive
type; numbers keep their source lexeme (the service never serializes
numbers, so no numeric semantics are needed). -/

inductive Json where
  | null : Json
  | bool (b : Bool) : Json
  | num (lexeme : String) : Json
  | str (s : String) : Json
  | arr (elems : List Json) : Json
  | obj (members : List (String × Json)) : Json

/-- JSON whitespace characters (ECMA-404). -/
def isWsChar (c : Char) : Bool :=
  c = ' ' ∨ c = '\n' ∨ c = '\r' ∨ c = '\t'

/-- Drop leading JSON whitespace. -/
def skipWs : List Char → List Char
  | [] => []
  | c :: rest => if isWsChar c then skipWs rest else c :: rest

/-- Value of a hexadecimal digit, as accepted in a `\uXXXX` escape. -/
def hexVal (c : Char) : Option Nat :=
  if '0' ≤ c ∧ c ≤ '9' then some (c.toNat - 48)
  else if 'a' ≤ c ∧ c ≤ 'f' then some (c.toNat - 87)
  else if 'A' ≤ c ∧ c ≤ 'F' then some (c.toNat - 55)
  else none

/-- Decode a single-character escape (everything except `\uXXXX`). -/
def decodeEsc (c : Char) : Option Char :=
  if c = '"' then some '"'
  else if c = '\\' then some '\\'
  else if c = '/' then some '/'
  else if c = 'b' then some (Char.ofNat 8)
  else if c = 'f' then some (Char.ofNat 12)
  else if c = 'n' then some '\n'
  else if c = 'r' then some '\r'
  else if c = 't' then some '\t'
  else none

/-- Parse the body of a JSON string (the opening quote already
consumed); returns the decoded characters and the input remaining after
the closing quote. -/
def parseStrBody : List Char → Option (List Char × List Char)
  | [] => none
  | c :: rest =>
    if c = '"' then some ([], rest)
    else if c = '\\' then
      match rest with
      | [] => none
      | e :: rest2 =>
        if e = 'u' then
          match rest2 with
          | h1 :: h2 :: h3 :: h4 :: rest3 =>
            match hexVal h1, hexVal h2, hexVal h3, hexVal h4 with
            | some a, some b, some c2, some d2 =>
              (parseStrBody rest3).map
                (fun p => (Char.ofNat (((a * 16 + b) * 16 + c2) * 16 + d2) :: p.1, p.2))
            | _, _, _, _ => none
          | _ => none
        else
          match decodeEsc e with
          | some d => (parseStrBody rest2).map (fun p => (d :: p.1, p.2))
          | none => none
    else if c.toNat < 32 then none
    else (parseStrBody rest).map (fun p => (c :: p.1, p.2))

/-- Longest leading run of decimal digits. -/
def takeDigits : List Char → List Char × List Char
  | [] => ([], [])
  | c :: rest =>
    if c.isDigit then
      let p := takeDigits rest
      (c :: p.1, p.2)
    else ([], c :: rest)

/-- Parse the integer part of a JSON number after an optional minus
sign: a lone `0`, or a nonzero digit followed by digits. -/
def parseIntPart : List Char → Option (List Char × List Char)
  | [] => none
  | c :: rest =>
    if c = '0' then some (['0'], rest)
    else if c.isDigit then
      let p := takeDigits rest
      some (c :: p.1, p.2)
    else none

/-- Parse the optional fraction part `.digits`. -/
def parseFracPart (cs : List Char) : List Char × List Char :=
  match cs with
  | '.' :: rest =>
    let p := takeDigits rest
    match p.1 with
    | [] => ([], cs)
    | _ => ('.' :: p.1, p.2)
  | _ => ([], cs)

/-- Parse the optional exponent part `e|E [+|-] digits`. -/
def parseExpPart (cs : List Char) : List Char × List Char :=
  match cs with
  | e :: rest =>
    if e = 'e' ∨ e = 'E' then
      match rest with
      | s :: rest2 =>
        if s = '+' ∨ s = '-' then
          let p := takeDigits rest2
          match p.1 with
          | [] => ([], cs)
          | _ => (e :: s :: p.1, p.2)
        else
          let p := takeDigits rest
          match p.1 with
          | [] => ([], cs)
          | _ => (e :: p.1, p.2)
      | [] => ([], cs)
    else ([], cs)
  | [] => ([], cs)

/-- Parse a JSON number, returning its lexeme. -/
def parseNum (cs : List Char) : Option (List Char × List Char) :=
  match cs with
  | '-' :: rest =>
    (parseIntPart rest).map (fun p =>
      let f := parseFracPart p.2
      let e := parseExpPart f.2
      ('-' :: p.1 ++ f.1 ++ e.1, e.2))
  | _ =>
    (parseIntPart cs).map (fun p =>
      let f := parseFracPart p.2
      let e := parseExpPart f.2
      (p.1 ++ f.1 ++ e.1, e.2))

mutual

/-- Fuel-driven recursive-descent parser for a JSON value.  Models
`JSON.parse`; with the fuel supplied by `jsonParse` below it accepts
exactly the grammar of ECMA-404 restricted to the escapes above. -/
def parseVal : Nat → List Char → Option (Json × List Char)
  | 0, _ => none
  | Nat.succ fuel, cs =>
    match skipWs cs with
    | [] => none
    | c :: rest =>
      if c = '"' then
        (parseStrBody rest).map (fun p => (Json.str ⟨p.1⟩, p.2))
      else if c = '[' then
        match skipWs rest with
        | ']' :: rest2 => some (Json.arr [], rest2)
        | cs2 => (parseItems fuel cs2).map (fun p => (Json.arr p.1, p.2))
      else if c = '{' then
        match skipWs rest with
        | '}' :: rest2 => some (Json.obj [], rest2)
        | cs2 => (parseMembers fuel cs2).map (fun p => (Json.obj p.1, p.2))
      else if c = 'n' then
        match rest with
        | 'u' :: 'l' :: 'l' :: rest2 => some (Json.null, rest2)
        | _ => none
      else if c = 't' then
        match rest with
        | 'r' :: 'u' :: 'e' :: rest2 => some (Json.bool true, rest2)
        | _ => none
      else if c = 'f' then
        match rest with
        | 'a' :: 'l' :: 's' :: 'e' :: rest2 => some (Json.bool false, rest2)
        | _ => none
      else
        (parseNum (c :: rest)).map (fun p => (Json.num ⟨p.1⟩, p.2))

/-- Parse the comma-separated items of a non-empty JSON array, up to
and including the closing bracket. -/
def parseItems : Nat → List Char → Option (List Json × List Char)
  | 0, _ => none
  | Nat.succ fuel, cs =>
    (parseVal fuel cs).bind (fun p =>
      match skipWs p.2 with
      | ',' :: rest => (parseItems fuel rest).map (fun q => (p.1 :: q.1, q.2))
      | ']' :: rest => some ([p.1], rest)
      | _ => none)

/-- Parse the comma-separated members of a non-empty JSON object, up to
and including the closing brace. -/
def parseMembers : Nat → List Char → Option (List (String × Json) × List Char)
  | 0, _ => none
  | Nat.succ fuel, cs =>
    match skipWs cs with
    | '"' :: rest =>
      (parseStrBody rest).bind (fun k =>
        match skipWs k.2 with
        | ':' :: rest2 =>
          (parseVal fuel rest2).bind (fun v =>
            match skipWs v.2 with
            | ',' :: rest3 =>
              (parseMembers fuel rest3).map (fun q => ((⟨k.1⟩, v.1) :: q.1, q.2))
            | '}' :: rest3 => some ([(⟨k.1⟩, v.1)], rest3)
            | _ => none)
        | _ => none)
    | _ => none

end

/-- Model of `JSON.parse`: `none` means the builtin throws a
`SyntaxError`.  The fuel `2 * length + 2` dominates the recursion depth
of any parse that consumes its input. -/
def jsonParse (s : String) : Option Json :=
  match parseVal (2 * s.length + 2) s.data with
  | some (v, rest) =>
    match skipWs rest with
    | [] => some v
    | _ => none
  | none => none

/-- Lower-case hexadecimal digit, as produced by `JSON.stringify` in a
`\u00XX` escape. -/
def hexDigitChar (n : Nat) : Char :=
  if n < 10 then Char.ofNat (48 + n) else Char.ofNat (87 + n)

/-- Escape one character the way `JSON.stringify` quotes string
characters (ECMA-262 QuoteJSONString). -/
def escapeChar (c : Char) : List Char :=
  if c = '"' then ['\\', '"']
  else if c = '\\' then ['\\', '\\']
  else if c = Char.ofNat 8 then ['\\', 'b']
  else if c = Char.ofNat 12 then ['\\', 'f']
  else if c = '\n' then ['\\', 'n']
  else if c = '\r' then ['\\', 'r']
  else if c = '\t' then ['\\', 't']
  else if c.toNat < 32 then
    ['\\', 'u', '0', '0', hexDigitChar (c.toNat / 16), hexDigitChar (c.toNat % 16)]
  else [c]

/-- Escape every character of a string body. -/
def escapeChars : List Char → List Char
  | [] => []
  | c :: rest => escapeChar c ++ escapeChars rest

/-- Encoding of `JSON.stringify` for a single string: quote and escape. -/
def encodeJsonString (s : String) : List Char :=
  '"' :: escapeChars s.data ++ ['"']

/-- Comma-join already-encoded array elements (no padding, matching
`JSON.stringify` with no space argument). -/
def joinComma : List (List Char) → List Char
  | [] => []
  | x :: xs =>
    match xs with
    | [] => x
    | _ :: _ => x ++ ',' :: joinComma xs

/-- Model of `JSON.stringify` applied to an array of strings — the only
shape the service ever serializes (its `tags` field). -/
def stringifyTags (l : List String) : String :=
  ⟨'[' :: joinComma (l.map encodeJsonString) ++ [']']⟩

/-! Section: JavaScript primitives

Helpers translating the JavaScript idioms that appear in the service:
`a || b` falls through when `a` is falsy (for strings: empty or
absent), and `Number(s) > 0` coerces a string to a number.  `none`
models an absent (`undefined`) or `null` value throughout. -/

/-- Model of `a || b` where `a` is a plain string field and `b` an optional one:
the empty string is falsy. -/
def jsOrSO (a : String) (b : Option String) : Option String :=
  if a = "" then b else some a

/-- Model of `a || b` where both sides are optional strings. -/
def jsOrOO (a b : Option String) : Option String :=
  match a with
  | some s => if s = "" then b else some s
  | none => b

/-- Model of `a || d` with a mandatory default: used for the `|| ''` and
`|| '#2563eb'`-style defaults in `createArticle` / `getCategories`. -/
def jsOrD (a : Option String) (d : String) : String :=
  match a with
  | some s => if s = "" then d else s
  | none => d

/-- Truthiness filter on an optional string: `if (x) … = x` keeps only
present, non-empty values (used by `updateArticle` and the
`|| null` writes in `createArticle`). -/
def truthyOpt (a : Option String) : Option String :=
  match a with
  | some s => if s = "" then none else some s
  | none => none

/-- Leading decimal digits interpreted as a number, requiring the whole
input to be digits. -/
def digitsToNat : List Char → Option Nat
  | [] => none
  | cs => decimalValue cs 0
where
  decimalValue : List Char → Nat → Option Nat
    | [], acc => some acc
    | c :: rest, acc =>
      if c.isDigit then decimalValue rest (acc * 10 + (c.toNat - 48)) else none

/-- Drop leading whitespace characters. -/
def dropLeadingWs : List Char → List Char
  | [] => []
  | c :: rest => if c.isWhitespace then dropLeadingWs rest else c :: rest

/-- Model of `String.prototype.trim`: strip whitespace from both
ends. -/
def jsTrim (s : String) : String :=
  ⟨(dropLeadingWs (dropLeadingWs s.data).reverse).reverse⟩

/-- Model of ECMAScript `Number(s)` on the strings this service stores
(`"1"`, `"0"`, and other integer literals): whitespace is trimmed, the
empty string coerces to `0`, an optionally signed digit string to the
corresponding integer; every other form yields `none` (`NaN`).
Fractional/hex literals are outside the model. -/
def jsToNum (s : String) : Option Int :=
  let t := jsTrim s
  if t = "" then some 0
  else
    match t.data with
    | '-' :: rest => (digitsToNat rest).map (fun n => -(n : Int))
    | '+' :: rest => (digitsToNat rest).map (fun n => (n : Int))
    | l => (digitsToNat l).map (fun n => (n : Int))

/-- Model of `Number(x) > 0` on an optional string (`Number(undefined)` is `NaN`
and every comparison against `NaN` is false). -/
def numGtZero (a : Option String) : Bool :=
  match a with
  | none => false
  | some s =>
    match jsToNum s with
    | some n => decide (0 < n)
    | none => false

/-- Substring test used to model the store's `contains` filter:
`pat` occurs contiguously in `hay`. -/
def strContains (hay pat : String) : Bool :=
  containsAux hay.data pat.data
where
  containsAux : List Char → List Char → Bool
    | l, pat =>
      match l with
      | [] => pat.isEmpty
      | _ :: rest => pat.isPrefixOf l || containsAux rest pat

/-! Section: Data model

`DbArticle` is the persisted row shape: the camelCase columns this
service writes, plus optional snake_case counterparts that
`transformArticle` falls back to when normalizing rows written by other
producers (the service itself never writes them, so they default to
`none`).  `Article` is the domain shape of the TypeScript `Article`
interface; fields that `transformArticle` can leave `undefined` are
`Option String`. -/

structure DbArticle where
  id : String
  title : String
  content : String
  excerpt : String
  author : String
  category : String
  categoryName : String
  categoryColor : String
  featuredImage : String
  publishedAt : String
  readTime : String
  isAggregated : String
  sourceName : Option String
  sourceUrl : Option String
  tags : String
  userId : String
  createdAt : String
  updatedAt : String
  category_name : Option String := none
  category_color : Option String := none
  featured_image : Option String := none
  published_at : Option String := none
  read_time : Option String := none
  is_aggregated : Option String := none
  source_name : Option String := none
  source_url : Option String := none
  user_id : Option String := none
  created_at : Option String := none
  updated_at : Option String := none
deriving DecidableEq

structure Article where
  id : String
  title : String
  content : String
  excerpt : String
  author : String
  category : String
  categoryName : Option String
  categoryColor : Option String
  featuredImage : Option String
  publishedAt : Option String
  readTime : Option String
  isAggregated : Bool
  sourceName : Option String
  sourceUrl : Option String
  tags : Json
  userId : Option String
  createdAt : Option String
  updatedAt : Option String

/-- Raw category row: `getCategories` reads both naming conventions. -/
structure DbCategory where
  id : String
  name : String
  color : String
  description : Option String := none
  userId : Option String := none
  user_id : Option String := none
  createdAt : Option String := none
  created_at : Option String := none
deriving DecidableEq

/-- Domain `Category` interface. -/
structure Category where
  id : String
  name : String
  color : String
  description : String
  userId : Option String
  createdAt : Option String
deriving DecidableEq

/-- The `ArticleFilters` interface of the source: all fields optional. -/
structure ArticleFilters where
  category : Option String := none
  search : Option String := none
  isAggregated : Option Bool := none
  limit : Option Nat := none
  offset : Option Nat := none

/-- Model of `Partial<Article>` as passed to `createArticle` / `updateArticle`:
`none` is an absent property. -/
structure ArticlePatch where
  title : Option String := none
  content : Option String := none
  excerpt : Option String := none
  author : Option String := none
  category : Option String := none
  categoryName : Option String := none
  categoryColor : Option String := none
  featuredImage : Option String := none
  publishedAt : Option String := none
  readTime : Option String := none
  isAggregated : Option Bool := none
  sourceName : Option String := none
  sourceUrl : Option String := none
  tags : Option (List String) := none
  userId : Option String := none

/-! Section: The remote document store

Modelled from the spec: §6 gives the consumed contract
`list({where, orderBy, limit}) → records`, `create(record) → record`,
`update(id, partialRecord) → void`, `delete(id) → void`, with `where`
supporting field equality, `{field: {contains: value}}` substring
match, a `{field: {not: value}}` exclusion, and `AND`/`OR` composition.
The store itself is a list of rows; `orderBy: {publishedAt: 'desc'}`
sorts by that column descending. -/

/-- Columns the service's where-clauses mention. -/
inductive Field where
  | id | title | excerpt | author | category | tags | isAggregated
deriving DecidableEq

def getField (a : DbArticle) : Field → String
  | .id => a.id
  | .title => a.title
  | .excerpt => a.excerpt
  | .author => a.author
  | .category => a.category
  | .tags => a.tags
  | .isAggregated => a.isAggregated

/-- Atomic where-clause conditions. -/
inductive SimpleCond where
  | eq (f : Field) (v : String)
  | ne (f : Field) (v : String)
  | contains (f : Field) (v : String)
deriving DecidableEq

/-- A condition object pushed onto `whereConditions`: either a single
field condition or an `OR` of several. -/
inductive Cond where
  | simple (c : SimpleCond)
  | or (cs : List SimpleCond)
deriving DecidableEq

/-- A full where clause: absent, a bare condition object, or an `AND`
of condition objects. -/
inductive Where where
  | empty
  | cond (c : Cond)
  | and (cs : List Cond)
deriving DecidableEq

def evalSimple (a : DbArticle) : SimpleCond → Bool
  | .eq f v => getField a f == v
  | .ne f v => getField a f != v
  | .contains f v => strContains (getField a f) v

def evalCond (a : DbArticle) : Cond → Bool
  | .simple c => evalSimple a c
  | .or cs => cs.any (evalSimple a)

def evalWhere (a : DbArticle) : Where → Bool
  | .empty => true
  | .cond c => evalCond a c
  | .and cs => cs.all (evalCond a)

/-- The `orderBy: publishedAt desc` comparison (lexicographic on the
date string's characters, so ISO dates sort chronologically). -/
def pubDesc (a b : DbArticle) : Prop :=
  b.publishedAt.data ≤ a.publishedAt.data

instance : DecidableRel pubDesc := fun a b =>
  inferInstanceAs (Decidable (b.publishedAt.data ≤ a.publishedAt.data))

instance : IsTotal DbArticle pubDesc :=
  ⟨fun a b => le_total b.publishedAt.data a.publishedAt.data⟩

instance : IsTrans DbArticle pubDesc :=
  ⟨fun _ _ _ h1 h2 => le_trans h2 h1⟩

/-- Sort rows most-recently-published first. -/
def sortByPublishedDesc (l : List DbArticle) : List DbArticle :=
  List.insertionSort pubDesc l

/-- Modelled from the spec: the store's
`list({where, orderBy, limit})` — filter by the where clause, apply the
`publishedAt` descending order when requested, return at most `limit`
rows. -/
def dbList (store : List DbArticle) (w : Where) (orderDesc : Bool) (limit : Nat) :
    List DbArticle :=
  let filtered := store.filter (fun a => evalWhere a w)
  (if orderDesc then sortByPublishedDesc filtered else filtered).take limit

/-- Modelled from the spec: `delete(id)` removes the rows with that id. -/
def dbDelete (store : List DbArticle) (id : String) : List DbArticle :=
  store.filter (fun a => a.id != id)

/-! Section: The Article Data Service

Each operation is translated from `ArticleService` in
`src/services/articleService.ts`.  The `fail` flag models the remote
call rejecting (the body of the `try` throwing at the `await`): the
`catch` branch is then taken.  Write operations additionally return the
store state after the call. -/

/-- Translation of `parseTags` (lines 274–280): `JSON.parse(tagsString || '[]')`,
degrading to an empty array when the parse throws. -/
def parseTags (tagsString : String) : Json :=
  match jsonParse (if tagsString = "" then "[]" else tagsString) with
  | some v => v
  | none => Json.arr []

/-- Translation of `transformArticle` (lines 251–272): normalize a raw row into the
domain shape, falling back per-field from camelCase to snake_case and
decoding the persisted flag with `Number(…) > 0`. -/
def transformArticle (a : DbArticle) : Article :=
  { id := a.id
    title := a.title
    content := a.content
    excerpt := a.excerpt
    author := a.author
    category := a.category
    categoryName := jsOrSO a.categoryName a.category_name
    categoryColor := jsOrSO a.categoryColor a.category_color
    featuredImage := jsOrSO a.featuredImage a.featured_image
    publishedAt := jsOrSO a.publishedAt a.published_at
    readTime := jsOrSO a.readTime a.read_time
    isAggregated := numGtZero (jsOrSO a.isAggregated a.is_aggregated)
    sourceName := jsOrOO a.sourceName a.source_name
    sourceUrl := jsOrOO a.sourceUrl a.source_url
    tags := parseTags a.tags
    userId := jsOrSO a.userId a.user_id
    createdAt := jsOrSO a.createdAt a.created_at
    updatedAt := jsOrSO a.updatedAt a.updated_at }

/-- Lines 48–51: the category filter is pushed when the category is
truthy (present and non-empty) and not `'all'`. -/
def categoryConds : Option String → List Cond
  | some c => if c = "" ∨ c = "all" then [] else [Cond.simple (.eq .category c)]
  | none => []

/-- Lines 53–63: a truthy search pushes one `OR` across
title/excerpt/author/tags substring matches. -/
def searchConds : Option String → List Cond
  | some s =>
    if s = "" then []
    else [Cond.or [.contains .title s, .contains .excerpt s,
                   .contains .author s, .contains .tags s]]
  | none => []

/-- Lines 65–68: a boolean `isAggregated` pushes an equality against
its persisted `"1"`/`"0"` encoding. -/
def aggregatedConds : Option Bool → List Cond
  | some b => [Cond.simple (.eq .isAggregated (if b then "1" else "0"))]
  | none => []

/-- The `whereConditions` array built by `getArticles` (lines 46–68). -/
def whereConds (filters : ArticleFilters) : List Cond :=
  categoryConds filters.category ++ searchConds filters.search
    ++ aggregatedConds filters.isAggregated

/-- Lines 70–72: `whereConditions.length > 0 ? {AND: whereConditions} : {}`. -/
def mkWhere (cs : List Cond) : Where :=
  if cs.length > 0 then Where.and cs else Where.empty

/-- The raw rows fetched by `getArticles` (lines 74–79): note the
`offset` option is destructured but commented out of the query. -/
def getArticlesRaw (store : List DbArticle) (filters : ArticleFilters) :
    List DbArticle :=
  let lim := filters.limit.getD 20
  dbList store (mkWhere (whereConds filters)) true lim

/-- Translation of `getArticles` (lines 42–86). -/
def getArticles (fail : Bool) (store : List DbArticle) (filters : ArticleFilters) :
    List Article :=
  if fail then [] else (getArticlesRaw store filters).map transformArticle

/-- Translation of `getArticleById` (lines 88–104): exact-match on id, limit 1, no
order. -/
def getArticleById (fail : Bool) (store : List DbArticle) (id : String) :
    Option Article :=
  if fail then none
  else
    (dbList store (Where.cond (Cond.simple (.eq .id id))) false 1).head?.map
      transformArticle

/-- Translation of `getFeaturedArticle` (lines 106–122): single most recent row. -/
def getFeaturedArticle (fail : Bool) (store : List DbArticle) : Option Article :=
  if fail then none
  else (dbList store Where.empty true 1).head?.map transformArticle

/-- Translation of `getTrendingArticles` (lines 124–137): fetch `limit + 1` most
recent rows and skip the first. -/
def getTrendingArticles (fail : Bool) (store : List DbArticle) (limit : Nat) :
    List Article :=
  if fail then []
  else ((dbList store Where.empty true (limit + 1)).drop 1).map transformArticle

/-- Translation of `getRelatedArticles` (lines 139–157): same category, id excluded,
most recent first. -/
def getRelatedArticles (fail : Bool) (store : List DbArticle)
    (articleId category : String) (limit : Nat) : List Article :=
  if fail then []
  else
    (dbList store
      (Where.and [Cond.simple (.eq .category category),
                  Cond.simple (.ne .id articleId)])
      true limit).map transformArticle

/-- Modelled from the spec: the category store's
`list({orderBy: {name: 'asc'}})`. -/
def nameAsc (a b : DbCategory) : Prop :=
  a.name.data ≤ b.name.data

instance : DecidableRel nameAsc := fun a b =>
  inferInstanceAs (Decidable (a.name.data ≤ b.name.data))

instance : IsTotal DbCategory nameAsc :=
  ⟨fun a b => le_total a.name.data b.name.data⟩

instance : IsTrans DbCategory nameAsc :=
  ⟨fun _ _ _ h1 h2 => le_trans h1 h2⟩

def dbListCategories (cstore : List DbCategory) : List DbCategory :=
  List.insertionSort nameAsc cstore

/-- The per-row normalization inside `getCategories` (lines 165–172). -/
def normalizeCategory (cat : DbCategory) : Category :=
  { id := cat.id
    name := cat.name
    color := cat.color
    description := jsOrD cat.description ""
    userId := jsOrOO cat.userId cat.user_id
    createdAt := jsOrOO cat.createdAt cat.created_at }

/-- Translation of `getCategories` (lines 159–177). -/
def getCategories (fail : Bool) (cstore : List DbCategory) : List Category :=
  if fail then [] else (dbListCategories cstore).map normalizeCategory

/-- The record written by `createArticle` (lines 181–202).  `ts` and
`rand` model `Date.now()` and the random suffix, `today` models
`new Date().toISOString().split('T')[0]` and `now` the full
`new Date().toISOString()`. -/
def createRecord (ts : Nat) (rand today now : String) (d : ArticlePatch) :
    DbArticle :=
  { id := "article_" ++ ts.repr ++ "_" ++ rand
    title := jsOrD d.title ""
    content := jsOrD d.content ""
    excerpt := jsOrD d.excerpt ""
    author := jsOrD d.author ""
    category := jsOrD d.category ""
    categoryName := jsOrD d.categoryName ""
    categoryColor := jsOrD d.categoryColor "#2563eb"
    featuredImage := jsOrD d.featuredImage ""
    publishedAt := jsOrD d.publishedAt today
    readTime := jsOrD d.readTime "5 min read"
    isAggregated := if d.isAggregated.getD false then "1" else "0"
    sourceName := truthyOpt d.sourceName
    sourceUrl := truthyOpt d.sourceUrl
    tags := stringifyTags (d.tags.getD [])
    userId := jsOrD d.userId "user"
    createdAt := now
    updatedAt := now }

/-- Translation of `createArticle` (lines 179–209): write the defaulted record
(modelled from the spec, the store's `create` appends the row and
echoes it back), return its normalized round-trip, or `null` and an
unchanged store on failure. -/
def createArticle (fail : Bool) (store : List DbArticle) (ts : Nat)
    (rand today now : String) (d : ArticlePatch) :
    Option Article × List DbArticle :=
  if fail then (none, store)
  else
    let a := createRecord ts rand today now d
    (some (transformArticle a), store ++ [a])

/-- The sparse `updateData` object built by `updateArticle`
(lines 213–230): a field is present only when the supplied value passes
the source's guard — truthiness for the string and tags fields, a
`typeof … === 'boolean'` check for the flag; `updatedAt` is always
present. -/
structure UpdateData where
  updatedAt : String
  title : Option String := none
  content : Option String := none
  excerpt : Option String := none
  author : Option String := none
  category : Option String := none
  categoryName : Option String := none
  categoryColor : Option String := none
  featuredImage : Option String := none
  publishedAt : Option String := none
  readTime : Option String := none
  isAggregated : Option String := none
  sourceName : Option String := none
  sourceUrl : Option String := none
  tags : Option String := none
deriving DecidableEq

def buildUpdateData (now : String) (d : ArticlePatch) : UpdateData :=
  { updatedAt := now
    title := truthyOpt d.title
    content := truthyOpt d.content
    excerpt := truthyOpt d.excerpt
    author := truthyOpt d.author
    category := truthyOpt d.category
    categoryName := truthyOpt d.categoryName
    categoryColor := truthyOpt d.categoryColor
    featuredImage := truthyOpt d.featuredImage
    publishedAt := truthyOpt d.publishedAt
    readTime := truthyOpt d.readTime
    isAggregated := d.isAggregated.map (fun b => if b then "1" else "0")
    sourceName := truthyOpt d.sourceName
    sourceUrl := truthyOpt d.sourceUrl
    tags := d.tags.map stringifyTags }

/-- Modelled from the spec: the store's `update(id, partialRecord)`
merges the supplied columns into the rows with that id. -/
def applyUpdate (a : DbArticle) (u : UpdateData) : DbArticle :=
  { a with
    title := u.title.getD a.title
    content := u.content.getD a.content
    excerpt := u.excerpt.getD a.excerpt
    author := u.author.getD a.author
    category := u.category.getD a.category
    categoryName := u.categoryName.getD a.categoryName
    categoryColor := u.categoryColor.getD a.categoryColor
    featuredImage := u.featuredImage.getD a.featuredImage
    publishedAt := u.publishedAt.getD a.publishedAt
    readTime := u.readTime.getD a.readTime
    isAggregated := u.isAggregated.getD a.isAggregated
    sourceName := match u.sourceName with
      | some s => some s
      | none => a.sourceName
    sourceUrl := match u.sourceUrl with
      | some s => some s
      | none => a.sourceUrl
    tags := u.tags.getD a.tags
    updatedAt := u.updatedAt }

def dbUpdate (store : List DbArticle) (id : String) (u : UpdateData) :
    List DbArticle :=
  store.map (fun a => if a.id = id then applyUpdate a u else a)

/-- Translation of `updateArticle` (lines 211–239): write the sparse update, then
re-read through `getArticleById`. -/
def updateArticle (fail : Bool) (store : List DbArticle) (now id : String)
    (d : ArticlePatch) : Option Article × List DbArticle :=
  if fail then (none, store)
  else
    let store2 := dbUpdate store id (buildUpdateData now d)
    (getArticleById false store2 id, store2)

/-- Translation of `deleteArticle` (lines 241–249). -/
def deleteArticle (fail : Bool) (store : List DbArticle) (id : String) :
    Bool × List DbArticle :=
  if fail then (false, store)
  else (true, dbDelete store id)

/-! Section: Round-trip of the tag serialization -/

theorem hexVal_hexDigitChar {n : Nat} (h : n < 16) :
    hexVal (hexDigitChar n) = some n := by
  interval_cases n <;> decide

theorem hexVal_zero : hexVal '0' = some 0 := by decide

theorem parseStrBody_escape (c : Char) (tail : List Char) :
    parseStrBody (escapeChar c ++ tail)
      = (parseStrBody tail).map (fun p => (c :: p.1, p.2)) := by
  by_cases h1 : c = '"'
  · subst h1
    rw [escapeChar, if_pos rfl]
    rw [List.cons_append, List.cons_append, List.nil_append]
    rw [parseStrBody.eq_def]; simp [decodeEsc]
  by_cases h2 : c = '\\'
  · subst h2
    rw [escapeChar, if_neg h1, if_pos rfl]
    rw [List.cons_append, List.cons_append, List.nil_append]
    rw [parseStrBody.eq_def]; simp [decodeEsc]
  by_cases h3 : c = Char.ofNat 8
  · subst h3
    rw [escapeChar, if_neg h1, if_neg h2, if_pos rfl]
    rw [List.cons_append, List.cons_append, List.nil_append]
    rw [parseStrBody.eq_def]; simp [decodeEsc]
  by_cases h4 : c = Char.ofNat 12
  · subst h4
    rw [escapeChar, if_neg h1, if_neg h2, if_neg h3, if_pos rfl]
    rw [List.cons_append, List.cons_append, List.nil_append]
    rw [parseStrBody.eq_def]; simp [decodeEsc]
  by_cases h5 : c = '\n'
  · subst h5
    rw [escapeChar, if_neg h1, if_neg h2, if_neg h3, if_neg h4, if_pos rfl]
    rw [List.cons_append, List.cons_append, List.nil_append]
    rw [parseStrBody.eq_def]; simp [decodeEsc]
  by_cases h6 : c = '\r'
  · subst h6
    rw [escapeChar, if_neg h1, if_neg h2, if_neg h3, if_neg h4, if_neg h5, if_pos rfl]
    rw [List.cons_append, List.cons_append, List.nil_append]
    rw [parseStrBody.eq_def]; simp [decodeEsc]
  by_cases h7 : c = '\t'
  · subst h7
    rw [escapeChar, if_neg h1, if_neg h2, if_neg h3, if_neg h4, if_neg h5, if_neg h6,
      if_pos rfl]
    rw [List.cons_append, List.cons_append, List.nil_append]
    rw [parseStrBody.eq_def]; simp [decodeEsc]
  by_cases h8 : c.toNat < 32
  · have hdiv : c.toNat / 16 < 16 := by omega
    have hmod : c.toNat % 16 < 16 := by omega
    rw [escapeChar, if_neg h1, if_neg h2, if_neg h3, if_neg h4, if_neg h5, if_neg h6,
      if_neg h7, if_pos h8]
    rw [show (['\\', 'u', '0', '0', hexDigitChar (c.toNat / 16),
          hexDigitChar (c.toNat % 16)] ++ tail : List Char)
        = '\\' :: 'u' :: '0' :: '0' :: hexDigitChar (c.toNat / 16)
            :: hexDigitChar (c.toNat % 16) :: tail from rfl]
    rw [parseStrBody.eq_def]
    simp only [reduceIte]
    rw [hexVal_zero, hexVal_hexDigitChar hdiv, hexVal_hexDigitChar hmod]
    rw [if_neg (show ¬(('\\' : Char) = '"') by decide)]
    show Option.map
        (fun p => (Char.ofNat (((0 * 16 + 0) * 16 + c.toNat / 16) * 16 + c.toNat % 16)
          :: p.1, p.2)) (parseStrBody tail) = _
    have harith : ((0 * 16 + 0) * 16 + c.toNat / 16) * 16 + c.toNat % 16 = c.toNat := by
      omega
    rw [harith, Char.ofNat_toNat]
  · rw [escapeChar, if_neg h1, if_neg h2, if_neg h3, if_neg h4, if_neg h5, if_neg h6,
      if_neg h7, if_neg h8]
    rw [List.cons_append, List.nil_append]
    rw [parseStrBody.eq_def]
    simp [h1, h2, h8]

theorem parseStrBody_encode (s : List Char) (tail : List Char) :
    parseStrBody (escapeChars s ++ ('"' :: tail)) = some (s, tail) := by
  induction s with
  | nil =>
    rw [escapeChars, List.nil_append, parseStrBody.eq_def]
    simp
  | cons c s ih =>
    have hshape : escapeChars (c :: s) ++ ('"' :: tail)
        = escapeChar c ++ (escapeChars s ++ ('"' :: tail)) := by
      rw [escapeChars, List.append_assoc]
    rw [hshape, parseStrBody_escape, ih]
    rfl

theorem parseVal_encodeJsonString (fuel : Nat) (s : String) (tail : List Char) :
    parseVal (Nat.succ fuel) (encodeJsonString s ++ tail)
      = some (Json.str s, tail) := by
  have hshape : encodeJsonString s ++ tail
      = '"' :: (escapeChars s.data ++ ('"' :: tail)) := by
    rw [encodeJsonString]
    simp [List.append_assoc]
  rw [hshape, parseVal.eq_def]
  simp [skipWs, isWsChar, parseStrBody_encode]


theorem skipWs_cons {c : Char} (h : isWsChar c = false) (rest : List Char) :
    skipWs (c :: rest) = c :: rest := by
  simp [skipWs, h]

theorem parseItems_succ (fuel : Nat) (cs : List Char) :
    parseItems (Nat.succ fuel) cs
      = (parseVal fuel cs).bind (fun p =>
          match skipWs p.2 with
          | ',' :: rest => (parseItems fuel rest).map (fun q => (p.1 :: q.1, q.2))
          | ']' :: rest => some ([p.1], rest)
          | _ => none) := by
  rw [parseItems.eq_def]

theorem parseVal_succ (fuel : Nat) (cs : List Char) :
    parseVal (Nat.succ fuel) cs
      = (match skipWs cs with
         | [] => none
         | c :: rest =>
           if c = '"' then
             (parseStrBody rest).map (fun p => (Json.str ⟨p.1⟩, p.2))
           else if c = '[' then
             match skipWs rest with
             | ']' :: rest2 => some (Json.arr [], rest2)
             | cs2 => (parseItems fuel cs2).map (fun p => (Json.arr p.1, p.2))
           else if c = '{' then
             match skipWs rest with
             | '}' :: rest2 => some (Json.obj [], rest2)
             | cs2 => (parseMembers fuel cs2).map (fun p => (Json.obj p.1, p.2))
           else if c = 'n' then
             match rest with
             | 'u' :: 'l' :: 'l' :: rest2 => some (Json.null, rest2)
             | _ => none
           else if c = 't' then
             match rest with
             | 'r' :: 'u' :: 'e' :: rest2 => some (Json.bool true, rest2)
             | _ => none
           else if c = 'f' then
             match rest with
             | 'a' :: 'l' :: 's' :: 'e' :: rest2 => some (Json.bool false, rest2)
             | _ => none
           else (parseNum (c :: rest)).map (fun p => (Json.num ⟨p.1⟩, p.2))) := by
  rw [parseVal.eq_def]

theorem parseItems_encode (xs : List String) (x : String) (fuel : Nat)
    (tail : List Char) :
    parseItems (2 * (x :: xs).length + fuel)
        (joinComma ((x :: xs).map encodeJsonString) ++ (']' :: tail))
      = some ((x :: xs).map Json.str, tail) := by
  induction xs generalizing x fuel tail with
  | nil =>
    rw [show (2 * ([x] : List String).length + fuel : Nat)
        = Nat.succ (Nat.succ fuel) from by simp [List.length]; omega]
    rw [show joinComma (([x] : List String).map encodeJsonString)
        = encodeJsonString x from rfl]
    rw [parseItems_succ, parseVal_encodeJsonString]
    simp [skipWs, isWsChar]
  | cons y ys ih =>
    rw [show (2 * (x :: y :: ys).length + fuel : Nat)
        = Nat.succ (2 * (y :: ys).length + (fuel + 1)) from by
      simp [List.length]; omega]
    have hshape : joinComma ((x :: y :: ys).map encodeJsonString) ++ (']' :: tail)
        = encodeJsonString x
            ++ (',' :: (joinComma ((y :: ys).map encodeJsonString) ++ (']' :: tail))) := by
      rw [show joinComma ((x :: y :: ys).map encodeJsonString)
          = encodeJsonString x ++ ',' :: joinComma ((y :: ys).map encodeJsonString)
          from rfl]
      simp [List.append_assoc]
    rw [hshape, parseItems_succ]
    rw [show (2 * (y :: ys).length + (fuel + 1) : Nat)
        = Nat.succ (2 * (y :: ys).length + fuel) from by omega]
    rw [parseVal_encodeJsonString]
    simp only [Option.some_bind]
    rw [skipWs_cons (by decide)]
    show (parseItems (Nat.succ (2 * (y :: ys).length + fuel))
        (joinComma ((y :: ys).map encodeJsonString) ++ (']' :: tail))).map
          (fun q => (Json.str x :: q.1, q.2)) = _
    rw [show (Nat.succ (2 * (y :: ys).length + fuel) : Nat)
        = 2 * (y :: ys).length + (fuel + 1) from by omega]
    rw [ih y (fuel + 1) tail]
    rfl

theorem parseVal_stringifyTags (l : List String) (fuel : Nat) (tail : List Char) :
    parseVal (2 * l.length + fuel + 1) ((stringifyTags l).data ++ tail)
      = some (Json.arr (l.map Json.str), tail) := by
  cases l with
  | nil =>
    rw [show ((stringifyTags []).data ++ tail : List Char)
        = '[' :: ']' :: tail from by simp [stringifyTags, joinComma]]
    rw [show (2 * ([] : List String).length + fuel + 1 : Nat)
        = Nat.succ fuel from by simp]
    rw [parseVal_succ]
    simp [skipWs, isWsChar]
  | cons x xs =>
    have hdata : (stringifyTags (x :: xs)).data ++ tail
        = '[' :: (joinComma ((x :: xs).map encodeJsonString) ++ (']' :: tail)) := by
      simp [stringifyTags, List.append_assoc]
    obtain ⟨r, hr⟩ : ∃ r, joinComma ((x :: xs).map encodeJsonString) ++ (']' :: tail)
        = '"' :: r := by
      cases xs with
      | nil =>
        refine ⟨escapeChars x.data ++ ['"'] ++ (']' :: tail), ?_⟩
        rw [show joinComma (([x] : List String).map encodeJsonString)
            = encodeJsonString x from rfl]
        rw [encodeJsonString]
        simp [List.append_assoc]
      | cons y ys =>
        refine ⟨escapeChars x.data ++ ['"']
          ++ (',' :: (joinComma ((y :: ys).map encodeJsonString) ++ (']' :: tail))), ?_⟩
        rw [show joinComma ((x :: y :: ys).map encodeJsonString)
            = encodeJsonString x ++ ',' :: joinComma ((y :: ys).map encodeJsonString)
            from rfl]
        rw [encodeJsonString]
        simp [List.append_assoc]
    rw [hdata]
    rw [show (2 * (x :: xs).length + fuel + 1 : Nat)
        = Nat.succ (2 * (x :: xs).length + fuel) from rfl]
    rw [parseVal_succ, hr]
    rw [skipWs_cons (by decide)]
    show (match skipWs ('"' :: r) with
      | ']' :: rest2 => some (Json.arr [], rest2)
      | cs2 => (parseItems (2 * (x :: xs).length + fuel) cs2).map
          (fun (p : List Json × List Char) => (Json.arr p.1, p.2))) = _
    rw [skipWs_cons (by decide)]
    show (parseItems (2 * (x :: xs).length + fuel) ('"' :: r)).map
        (fun (p : List Json × List Char) => (Json.arr p.1, p.2)) = _
    rw [← hr, parseItems_encode xs x fuel tail]
    rfl

theorem length_le_stringifyTags (l : List String) :
    l.length + 1 ≤ (stringifyTags l).length := by
  have h : ∀ (m : List String),
      m.length ≤ (joinComma (m.map encodeJsonString)).length + 1 := by
    intro m
    induction m with
    | nil => simp [joinComma]
    | cons x xs ih =>
      cases xs with
      | nil => simp [joinComma]
      | cons y ys =>
        have hshape : joinComma ((x :: y :: ys).map encodeJsonString)
            = encodeJsonString x ++ ',' :: joinComma ((y :: ys).map encodeJsonString) :=
          rfl
        rw [hshape]
        simp only [List.length_append, List.length_cons] at *
        omega
  have hlen : (stringifyTags l).length
      = (joinComma (l.map encodeJsonString)).length + 2 := by
    simp [stringifyTags, String.length]
  have := h l
  omega

theorem jsonParse_stringifyTags (l : List String) :
    jsonParse (stringifyTags l) = some (Json.arr (l.map Json.str)) := by
  have hle := length_le_stringifyTags l
  obtain ⟨k, hk⟩ : ∃ k, 2 * (stringifyTags l).length + 2 = 2 * l.length + k + 1 :=
    ⟨2 * (stringifyTags l).length + 1 - 2 * l.length, by omega⟩
  unfold jsonParse
  rw [hk]
  have h := parseVal_stringifyTags l k []
  rw [List.append_nil] at h
  rw [h]
  rfl

theorem parseTags_stringifyTags (l : List String) :
    parseTags (stringifyTags l) = Json.arr (l.map Json.str) := by
  have hne : stringifyTags l ≠ "" := by
    intro h
    have hdata : (stringifyTags l).data = "".data := by rw [h]
    simp [stringifyTags] at hdata
  rw [parseTags, if_neg hne, jsonParse_stringifyTags]

/-! Section: Query-composition helpers -/

theorem head?_take_one {α : Type} (l : List α) : (l.take 1).head? = l.head? := by
  cases l <;> rfl

theorem mem_dbList {store : List DbArticle} {w : Where} {ds : Bool} {lim : Nat}
    {r : DbArticle} (h : r ∈ dbList store w ds lim) :
    r ∈ store ∧ evalWhere r w = true := by
  unfold dbList at h
  have h1 := List.take_subset _ _ h
  have h2 : r ∈ store.filter (fun a => evalWhere a w) := by
    cases ds
    · exact h1
    · exact (List.mem_insertionSort _).1 h1
  exact List.mem_filter.1 h2

theorem evalWhere_mkWhere {cs : List Cond} {r : DbArticle}
    (h : evalWhere r (mkWhere cs) = true) : ∀ c ∈ cs, evalCond r c = true := by
  cases cs with
  | nil => intro c hc; cases hc
  | cons c0 cs0 =>
    rw [mkWhere] at h
    simp only [List.length_cons, if_pos (Nat.succ_pos _)] at h
    rw [evalWhere, List.all_eq_true] at h
    exact h

theorem getArticlesRaw_mem {store : List DbArticle} {filters : ArticleFilters}
    {r : DbArticle} (h : r ∈ getArticlesRaw store filters) :
    r ∈ store ∧ ∀ c ∈ whereConds filters, evalCond r c = true := by
  have h' : r ∈ dbList store (mkWhere (whereConds filters)) true
      (filters.limit.getD 20) := h
  have := mem_dbList h'
  exact ⟨this.1, evalWhere_mkWhere this.2⟩

theorem getArticlesRaw_category {store : List DbArticle} {filters : ArticleFilters}
    {c : String} (hc : filters.category = some c) (h1 : c ≠ "") (h2 : c ≠ "all")
    {r : DbArticle} (hr : r ∈ getArticlesRaw store filters) : r.category = c := by
  have hmem : Cond.simple (.eq .category c) ∈ whereConds filters := by
    rw [whereConds, hc]
    refine List.mem_append_left _ (List.mem_append_left _ ?_)
    rw [categoryConds, if_neg (by simp [h1, h2])]
    exact List.mem_singleton.2 rfl
  have := (getArticlesRaw_mem hr).2 _ hmem
  rw [evalCond, evalSimple] at this
  exact eq_of_beq this

theorem getArticlesRaw_flag {store : List DbArticle} {filters : ArticleFilters}
    {b : Bool} (hb : filters.isAggregated = some b)
    {r : DbArticle} (hr : r ∈ getArticlesRaw store filters) :
    r.isAggregated = (if b then "1" else "0") := by
  have hmem : Cond.simple (.eq .isAggregated (if b then "1" else "0"))
      ∈ whereConds filters := by
    rw [whereConds, hb]
    refine List.mem_append_right _ ?_
    rw [aggregatedConds]
    exact List.mem_singleton.2 rfl
  have := (getArticlesRaw_mem hr).2 _ hmem
  rw [evalCond, evalSimple] at this
  exact eq_of_beq this

theorem getArticlesRaw_search {store : List DbArticle} {filters : ArticleFilters}
    {s : String} (hs : filters.search = some s) (h1 : s ≠ "")
    {r : DbArticle} (hr : r ∈ getArticlesRaw store filters) :
    strContains r.title s = true ∨ strContains r.excerpt s = true
      ∨ strContains r.author s = true ∨ strContains r.tags s = true := by
  have hmem : Cond.or [.contains .title s, .contains .excerpt s,
      .contains .author s, .contains .tags s] ∈ whereConds filters := by
    rw [whereConds, hs]
    refine List.mem_append_left _ (List.mem_append_right _ ?_)
    rw [searchConds, if_neg h1]
    exact List.mem_singleton.2 rfl
  have := (getArticlesRaw_mem hr).2 _ hmem
  rw [evalCond] at this
  simp only [List.any_cons, List.any_nil, Bool.or_false, Bool.or_eq_true,
    evalSimple, getField] at this
  exact this

theorem trim_ne_of_ne {s : String} (h : jsTrim s ≠ "") : s ≠ "" := by
  intro he
  subst he
  exact h rfl

/-! Section: Concrete fixtures used by the witnesses -/

def artA : DbArticle :=
  { id := "a1", title := "Intro to AI", content := "body", excerpt := "ai intro",
    author := "Ada", category := "tech", categoryName := "Tech",
    categoryColor := "#111111", featuredImage := "", publishedAt := "2024-02-01",
    readTime := "5 min read", isAggregated := "0", sourceName := none,
    sourceUrl := none, tags := "[]", userId := "u1", createdAt := "t1",
    updatedAt := "t1" }

def artB : DbArticle :=
  { id := "a2", title := "Slow living", content := "body", excerpt := "life",
    author := "Bob", category := "life", categoryName := "Life",
    categoryColor := "#222222", featuredImage := "", publishedAt := "2024-01-01",
    readTime := "4 min read", isAggregated := "1", sourceName := some "Feed",
    sourceUrl := some "https://feed.example", tags := "[]", userId := "u1",
    createdAt := "t0", updatedAt := "t0" }

def artC : DbArticle :=
  { id := "a3", title := "Rust tips", content := "body", excerpt := "rust",
    author := "Cay", category := "tech", categoryName := "Tech",
    categoryColor := "#111111", featuredImage := "", publishedAt := "2024-03-01",
    readTime := "6 min read", isAggregated := "0", sourceName := none,
    sourceUrl := none, tags := "[]", userId := "u1", createdAt := "t2",
    updatedAt := "t2" }

def artD : DbArticle :=
  { id := "a4", title := "Go tips", content := "body", excerpt := "go",
    author := "Dee", category := "tech", categoryName := "Tech",
    categoryColor := "#111111", featuredImage := "", publishedAt := "2024-04-01",
    readTime := "6 min read", isAggregated := "1", sourceName := some "Feed",
    sourceUrl := some "https://feed.example", tags := "[]", userId := "u1",
    createdAt := "t3", updatedAt := "t3" }

def filtersA : ArticleFilters :=
  { category := some "tech", isAggregated := some false }

/-! Section: Claim theorems -/

/-- C2: on any remote-store failure every service operation returns its
safe default instead of propagating the exception: the list operations
(`getArticles`, `getTrendingArticles`, `getRelatedArticles`,
`getCategories`) return an empty sequence, the single-record operations
(`getArticleById`, `getFeaturedArticle`, `createArticle`,
`updateArticle`) return the null/not-found marker, and `deleteArticle`
returns `false`. -/
theorem failSoft_defaults_c2 (store : List DbArticle) (cstore : List DbCategory)
    (filters : ArticleFilters) (id cat rand today now : String) (ts lim : Nat)
    (d : ArticlePatch) :
    getArticles true store filters = []
    ∧ getTrendingArticles true store lim = []
    ∧ getRelatedArticles true store id cat lim = []
    ∧ getCategories true cstore = []
    ∧ getArticleById true store id = none
    ∧ getFeaturedArticle true store = none
    ∧ createArticle true store ts rand today now d = (none, store)
    ∧ updateArticle true store now id d = (none, store)
    ∧ deleteArticle true store id = (false, store) :=
  ⟨rfl, rfl, rfl, rfl, rfl, rfl, rfl, rfl, rfl⟩

/-- C3: serializing any list of tag strings and parsing it back yields
the original list in order, and any stored tags value that is not
parseable JSON parses to the empty list instead of failing. -/
theorem tags_roundTrip_c3 :
    (∀ l : List String, parseTags (stringifyTags l) = Json.arr (l.map Json.str))
    ∧ (∀ s : String, jsonParse s = none → parseTags s = Json.arr []) := by
  constructor
  · exact parseTags_stringifyTags
  · intro s hs
    by_cases h : s = ""
    · subst h
      rw [parseTags, if_pos rfl,
        show ("[]" : String) = stringifyTags [] from rfl,
        jsonParse_stringifyTags]
      rfl
    · rw [parseTags, if_neg h, hs]

/-- Witness for C3 at a concrete malformed stored value. -/
theorem tags_roundTrip_c3_witness : parseTags "oops" = Json.arr [] := by
  apply tags_roundTrip_c3.2
  rw [jsonParse]
  rw [show (2 * ("oops" : String).length + 2 : Nat) = Nat.succ 9 from rfl]
  rw [parseVal_succ]
  rfl

/-- C10: supplying the empty string as the category applies no category
restriction — the result coincides with an absent category and with
category `"all"`. -/
theorem getArticles_emptyCategory_c10 (fail : Bool) (store : List DbArticle)
    (filters : ArticleFilters) :
    getArticles fail store { filters with category := some "" }
      = getArticles fail store { filters with category := none }
    ∧ getArticles fail store { filters with category := some "" }
      = getArticles fail store { filters with category := some "all" } := by
  constructor <;>
    simp [getArticles, getArticlesRaw, whereConds, categoryConds, mkWhere]

theorem length_dbList_le (store : List DbArticle) (w : Where) (ds : Bool)
    (lim : Nat) : (dbList store w ds lim).length ≤ lim := by
  unfold dbList
  simp [List.length_take]

theorem getArticlesRaw_sorted (store : List DbArticle) (filters : ArticleFilters) :
    List.Sorted pubDesc (getArticlesRaw store filters) :=
  List.Pairwise.sublist (List.take_sublist _ _)
    (List.sorted_insertionSort pubDesc
      (store.filter (fun a => evalWhere a (mkWhere (whereConds filters)))))

/-- C1: `getArticles` returns at most `limit` records (default 20), its
result does not depend on the supplied `offset`, and every fetched row
satisfies the supplied category and `isAggregated` predicates — in
particular `isAggregated = false` restricts to rows whose persisted
flag string is `"0"`. -/
theorem getArticles_filterContract_c1 (store : List DbArticle)
    (filters : ArticleFilters) :
    (getArticles false store filters).length ≤ filters.limit.getD 20
    ∧ (∀ o : Option Nat,
        getArticles false store { filters with offset := o }
          = getArticles false store filters)
    ∧ (∀ c : String, filters.category = some c → c ≠ "" → c ≠ "all" →
        ∀ r ∈ getArticlesRaw store filters, r.category = c)
    ∧ (∀ b : Bool, filters.isAggregated = some b →
        ∀ r ∈ getArticlesRaw store filters,
          r.isAggregated = (if b then "1" else "0")) := by
  refine ⟨?_, ?_, ?_, ?_⟩
  · show ((getArticlesRaw store filters).map transformArticle).length ≤ _
    rw [List.length_map]
    exact length_dbList_le store _ true _
  · intro o
    simp [getArticles, getArticlesRaw, whereConds]
  · intro c hc h1 h2 r hr
    exact getArticlesRaw_category hc h1 h2 hr
  · intro b hb r hr
    exact getArticlesRaw_flag hb hr

/-- Witness for C1 on a concrete mixed store. -/
theorem getArticles_filterContract_c1_witness :
    (getArticles false [artA, artB, artD] filtersA).length ≤ 20
    ∧ getArticles false [artA, artB, artD] { filtersA with offset := some 5 }
        = getArticles false [artA, artB, artD] filtersA
    ∧ artA.category = "tech"
    ∧ artA.isAggregated = "0" :=
  ⟨(getArticles_filterContract_c1 [artA, artB, artD] filtersA).1,
   (getArticles_filterContract_c1 [artA, artB, artD] filtersA).2.1 (some 5),
   (getArticles_filterContract_c1 [artA, artB, artD] filtersA).2.2.1 "tech" rfl
     (by decide) (by decide) artA (by decide),
   (getArticles_filterContract_c1 [artA, artB, artD] filtersA).2.2.2 false rfl
     artA (by decide)⟩

/-- C4: the flag is persisted as `"1"`/`"0"` on every write path
(`createArticle`, `updateArticle` with a supplied boolean, the
`getArticles` filter clause) and decoded on read by `transformArticle`
through the numeric coercion `Number(…) > 0`; decode inverts encode. -/
theorem isAggregated_encoding_c4 :
    (∀ (ts : Nat) (rand today now : String) (d : ArticlePatch),
      (createRecord ts rand today now d).isAggregated
        = (if d.isAggregated.getD false then "1" else "0"))
    ∧ (∀ (now : String) (d : ArticlePatch) (b : Bool), d.isAggregated = some b →
      (buildUpdateData now d).isAggregated = some (if b then "1" else "0"))
    ∧ (∀ (filters : ArticleFilters) (b : Bool), filters.isAggregated = some b →
      Cond.simple (.eq .isAggregated (if b then "1" else "0"))
        ∈ whereConds filters)
    ∧ (∀ a : DbArticle, (transformArticle a).isAggregated
        = numGtZero (jsOrSO a.isAggregated a.is_aggregated))
    ∧ (∀ b : Bool, numGtZero (some (if b then "1" else "0")) = b) := by
  refine ⟨fun _ _ _ _ _ => rfl, ?_, ?_, fun _ => rfl, ?_⟩
  · intro now d b hb
    show d.isAggregated.map (fun b => if b then "1" else "0") = _
    rw [hb]
    rfl
  · intro filters b hb
    rw [whereConds, hb]
    refine List.mem_append_right _ ?_
    rw [aggregatedConds]
    exact List.mem_singleton.2 rfl
  · intro b
    cases b <;> decide

/-- Witness for C4 at concrete booleans. -/
theorem isAggregated_encoding_c4_witness :
    (buildUpdateData "T" { isAggregated := some true }).isAggregated = some "1"
    ∧ Cond.simple (.eq .isAggregated "0") ∈ whereConds filtersA :=
  ⟨isAggregated_encoding_c4.2.1 "T" { isAggregated := some true } true rfl,
   isAggregated_encoding_c4.2.2.1 filtersA false rfl⟩

/-- C5: a search that is non-empty after trimming restricts results to
rows where the search string occurs in the title, excerpt, author or
serialized tags; the search `OR` is conjoined with the other supplied
predicates; with no filters at all, `getArticles` returns the most
recent rows up to `limit` ordered by `publishedAt` descending. -/
theorem getArticles_search_c5 (store : List DbArticle)
    (filters : ArticleFilters) :
    (∀ s : String, filters.search = some s → jsTrim s ≠ "" →
      ∀ r ∈ getArticlesRaw store filters,
        strContains r.title s = true ∨ strContains r.excerpt s = true
          ∨ strContains r.author s = true ∨ strContains r.tags s = true)
    ∧ (∀ r ∈ getArticlesRaw store filters,
        (∀ c : String, filters.category = some c → c ≠ "" → c ≠ "all" →
          r.category = c)
        ∧ (∀ b : Bool, filters.isAggregated = some b →
          r.isAggregated = (if b then "1" else "0"))
        ∧ (∀ s : String, filters.search = some s → jsTrim s ≠ "" →
          strContains r.title s = true ∨ strContains r.excerpt s = true
            ∨ strContains r.author s = true ∨ strContains r.tags s = true))
    ∧ (filters.category = none → filters.search = none →
        filters.isAggregated = none →
        getArticles false store filters
          = ((sortByPublishedDesc store).take (filters.limit.getD 20)).map
              transformArticle
        ∧ List.Sorted pubDesc (getArticlesRaw store filters)) := by
  refine ⟨?_, ?_, ?_⟩
  · intro s hs ht r hr
    exact getArticlesRaw_search hs (trim_ne_of_ne ht) hr
  · intro r hr
    exact ⟨fun c hc h1 h2 => getArticlesRaw_category hc h1 h2 hr,
      fun b hb => getArticlesRaw_flag hb hr,
      fun s hs ht => getArticlesRaw_search hs (trim_ne_of_ne ht) hr⟩
  · intro h1 h2 h3
    refine ⟨?_, getArticlesRaw_sorted store filters⟩
    show (getArticlesRaw store filters).map transformArticle = _
    rw [getArticlesRaw, whereConds, h1, h2, h3]
    show (dbList store (mkWhere []) true (filters.limit.getD 20)).map
        transformArticle = _
    rw [show mkWhere [] = Where.empty from rfl]
    unfold dbList
    rw [show (store.filter fun a => evalWhere a Where.empty) = store from by
      simp [evalWhere]]
    rfl

/-- Witness for C5: a concrete search hit and the no-filter ordering. -/
theorem getArticles_search_c5_witness :
    (strContains artC.title "tips" = true ∨ strContains artC.excerpt "tips" = true
      ∨ strContains artC.author "tips" = true
      ∨ strContains artC.tags "tips" = true)
    ∧ getArticles false [artA, artB] { }
        = ((sortByPublishedDesc [artA, artB]).take 20).map transformArticle :=
  ⟨(getArticles_search_c5 [artC] { search := some "tips" }).1 "tips" rfl
     (by decide) artC (by decide),
   ((getArticles_search_c5 [artA, artB] { }).2.2 rfl rfl rfl).1⟩

/-! Section: Update-path helpers -/

theorem transform_update_title {r : DbArticle} {s now : String} (hnow : now ≠ "") :
    transformArticle { r with title := s, updatedAt := now }
      = { transformArticle r with title := s, updatedAt := some now } := by
  simp [transformArticle, jsOrSO, hnow]

theorem filter_head_map (store : List DbArticle) (p : DbArticle → Bool)
    (g : DbArticle → DbArticle) (hg : ∀ a, p (g a) = p a) :
    ((store.map g).filter p).head? = ((store.filter p).head?).map g := by
  induction store with
  | nil => rfl
  | cons r rest ih =>
    by_cases h : p r = true
    · simp [List.filter_cons, hg, h]
    · simp only [List.map_cons, List.filter_cons, hg r, h]
      simpa [h] using ih

/-- C6 counterexample: the claim says a supplied `false` value is not
written, but `updateArticle` with `{isAggregated: false}` rewrites the
persisted flag of the matching row from `"1"` to `"0"`. -/
theorem updateArticle_sparse_c6_counterexample :
    ¬ ((updateArticle false [artD] "t9" "a4" { isAggregated := some false }).2.map
        (fun r => r.isAggregated) = [artD].map (fun r => r.isAggregated)) := by
  decide

/-- C6 (amended): `updateArticle` writes only the supplied
string/tags fields that are truthy — a supplied empty string is
dropped — but a supplied boolean `isAggregated` is always written, even
when `false`; `updatedAt` is always refreshed; every row field not in
the write is unchanged, so `update(id, {title: "X"})` re-reads as the
old record with only its title and updatedAt replaced. -/
theorem updateArticle_sparse_c6 (store : List DbArticle) (id s now : String)
    (hs : s ≠ "") (hnow : now ≠ "") :
    (updateArticle false store now id { title := some s }
      = ((getArticleById false store id).map
            (fun a => { a with title := s, updatedAt := some now }),
         store.map (fun r =>
           if r.id = id then { r with title := s, updatedAt := now } else r)))
    ∧ (∀ d : ArticlePatch, (buildUpdateData now d).updatedAt = now)
    ∧ (∀ t : String, (buildUpdateData now { title := some t }).title
        = (if t = "" then none else some t))
    ∧ (∀ b : Bool, (buildUpdateData now { isAggregated := some b }).isAggregated
        = some (if b then "1" else "0")) := by
  have hu : buildUpdateData now { title := some s }
      = ({ updatedAt := now, title := some s } : UpdateData) := by
    simp [buildUpdateData, truthyOpt, hs]
  have hstore : dbUpdate store id (buildUpdateData now { title := some s })
      = store.map (fun r =>
          if r.id = id then { r with title := s, updatedAt := now } else r) := by
    rw [dbUpdate, hu]
    apply List.map_congr_left
    intro a _
    by_cases h : a.id = id
    · rw [if_pos h, if_pos h]
      rfl
    · rw [if_neg h, if_neg h]
  refine ⟨?_, fun _ => rfl, fun _ => rfl, fun _ => rfl⟩
  show (getArticleById false
      (dbUpdate store id (buildUpdateData now { title := some s })) id,
    dbUpdate store id (buildUpdateData now { title := some s })) = _
  rw [hstore]
  refine Prod.ext ?_ rfl
  show getArticleById false (store.map (fun r =>
      if r.id = id then { r with title := s, updatedAt := now } else r)) id = _
  have hshape : ∀ st : List DbArticle, getArticleById false st id
      = ((st.filter (fun a => a.id == id)).head?).map transformArticle := by
    intro st
    show ((dbList st (Where.cond (Cond.simple (.eq .id id))) false 1).head?).map
        transformArticle = _
    rw [show dbList st (Where.cond (Cond.simple (.eq .id id))) false 1
        = (st.filter (fun a => a.id == id)).take 1 from rfl]
    rw [head?_take_one]
  rw [hshape, hshape]
  rw [filter_head_map store (fun a => a.id == id)
    (fun r => if r.id = id then { r with title := s, updatedAt := now } else r)
    (by
      intro a
      by_cases h : a.id = id
      · simp [h]
      · simp [h])]
  cases hfl : store.filter (fun a => a.id == id) with
  | nil => rfl
  | cons r rl =>
    have hr : r.id = id := by
      have hmem : r ∈ store.filter (fun a => a.id == id) := by
        rw [hfl]; exact List.mem_cons_self r rl
      exact eq_of_beq (List.mem_filter.1 hmem).2
    show some (transformArticle (if r.id = id
        then { r with title := s, updatedAt := now } else r)) = _
    rw [if_pos hr, transform_update_title hnow]
    rfl

/-- Witness for C6 (amended) on a concrete store. -/
theorem updateArticle_sparse_c6_witness :
    updateArticle false [artD] "t9" "a4" { title := some "X" }
      = ((getArticleById false [artD] "a4").map
            (fun a => { a with title := "X", updatedAt := some "t9" }),
         [artD].map (fun r =>
           if r.id = "a4" then { r with title := "X", updatedAt := "t9" } else r)) :=
  (updateArticle_sparse_c6 [artD] "a4" "X" "t9" (by decide) (by decide)).1

/-- C7: `createArticle` builds the row from the generated
`article_<timestamp>_<suffix>` identifier and the documented per-field
defaults, stamps both timestamps with the current time, writes it,
returns its normalized round-trip (tags included, order preserved), and
returns null with the store unchanged on failure. -/
theorem createArticle_defaults_c7 (store : List DbArticle) (ts : Nat)
    (rand today now : String) (d : ArticlePatch) :
    (createRecord ts rand today now d).id = "article_" ++ ts.repr ++ "_" ++ rand
    ∧ (createRecord ts rand today now d).createdAt = now
    ∧ (createRecord ts rand today now d).updatedAt = now
    ∧ (d.title = none → (createRecord ts rand today now d).title = "")
    ∧ (d.content = none → (createRecord ts rand today now d).content = "")
    ∧ (d.excerpt = none → (createRecord ts rand today now d).excerpt = "")
    ∧ (d.author = none → (createRecord ts rand today now d).author = "")
    ∧ (d.category = none → (createRecord ts rand today now d).category = "")
    ∧ (d.categoryName = none → (createRecord ts rand today now d).categoryName = "")
    ∧ (d.featuredImage = none →
        (createRecord ts rand today now d).featuredImage = "")
    ∧ (d.categoryColor = none →
        (createRecord ts rand today now d).categoryColor = "#2563eb")
    ∧ (d.publishedAt = none → (createRecord ts rand today now d).publishedAt = today)
    ∧ (d.readTime = none → (createRecord ts rand today now d).readTime = "5 min read")
    ∧ (d.isAggregated = none → (createRecord ts rand today now d).isAggregated = "0")
    ∧ (d.tags = none → (createRecord ts rand today now d).tags = stringifyTags [])
    ∧ (d.userId = none → (createRecord ts rand today now d).userId = "user")
    ∧ createArticle false store ts rand today now d
        = (some (transformArticle (createRecord ts rand today now d)),
           store ++ [createRecord ts rand today now d])
    ∧ (transformArticle (createRecord ts rand today now d)).tags
        = Json.arr ((d.tags.getD []).map Json.str)
    ∧ createArticle true store ts rand today now d = (none, store) := by
  refine ⟨rfl, rfl, rfl, ?_, ?_, ?_, ?_, ?_, ?_, ?_, ?_, ?_, ?_, ?_, ?_, ?_,
    rfl, ?_, rfl⟩
  · intro h; show jsOrD d.title "" = ""; rw [h]; rfl
  · intro h; show jsOrD d.content "" = ""; rw [h]; rfl
  · intro h; show jsOrD d.excerpt "" = ""; rw [h]; rfl
  · intro h; show jsOrD d.author "" = ""; rw [h]; rfl
  · intro h; show jsOrD d.category "" = ""; rw [h]; rfl
  · intro h; show jsOrD d.categoryName "" = ""; rw [h]; rfl
  · intro h; show jsOrD d.featuredImage "" = ""; rw [h]; rfl
  · intro h; show jsOrD d.categoryColor "#2563eb" = "#2563eb"; rw [h]; rfl
  · intro h; show jsOrD d.publishedAt today = today; rw [h]; rfl
  · intro h; show jsOrD d.readTime "5 min read" = "5 min read"; rw [h]; rfl
  · intro h
    show (if d.isAggregated.getD false then "1" else "0") = "0"
    rw [h]
    rfl
  · intro h; show stringifyTags (d.tags.getD []) = stringifyTags []; rw [h]
    rfl
  · intro h; show jsOrD d.userId "user" = "user"; rw [h]; rfl
  · show parseTags (stringifyTags (d.tags.getD [])) = _
    rw [parseTags_stringifyTags]

/-- Witness for C7: creation from an all-defaults patch. -/
theorem createArticle_defaults_c7_witness :
    (createRecord 7 "x9" "2024-05-01" "T0" { }).id = "article_7_x9"
    ∧ (createRecord 7 "x9" "2024-05-01" "T0" { }).categoryColor = "#2563eb"
    ∧ (createRecord 7 "x9" "2024-05-01" "T0" { }).publishedAt = "2024-05-01"
    ∧ (createRecord 7 "x9" "2024-05-01" "T0" { }).readTime = "5 min read"
    ∧ (createRecord 7 "x9" "2024-05-01" "T0" { }).isAggregated = "0"
    ∧ (createRecord 7 "x9" "2024-05-01" "T0" { }).userId = "user"
    ∧ (transformArticle (createRecord 7 "x9" "2024-05-01" "T0" { })).tags
        = Json.arr [] := by
  obtain ⟨h1, -, -, -, -, -, -, -, -, -, h11, h12, h13, h14, -, h16, -, h18, -⟩ :=
    createArticle_defaults_c7 [] 7 "x9" "2024-05-01" "T0" { }
  exact ⟨h1, h11 rfl, h12 rfl, h13 rfl, h14 rfl, h16 rfl, h18⟩

/-- C8: `getTrendingArticles` fetches the `limit + 1` most recent rows,
drops the single most recent one and returns up to `limit` of the
remainder in descending order; with fewer than 2 rows it is empty, and
the dropped head is a most-recent row of the store. -/
theorem getTrendingArticles_c8 (store : List DbArticle) (n : Nat) :
    getTrendingArticles false store n
      = (((sortByPublishedDesc store).drop 1).take n).map transformArticle
    ∧ (getTrendingArticles false store n).length = min n (store.length - 1)
    ∧ (store.length < 2 → getTrendingArticles false store n = [])
    ∧ (∀ (top : DbArticle) (rest : List DbArticle),
        sortByPublishedDesc store = top :: rest →
        ∀ r ∈ store, pubDesc top r) := by
  have hfilter : store.filter (fun a => evalWhere a Where.empty) = store := by
    simp [evalWhere]
  have heq : getTrendingArticles false store n
      = (((sortByPublishedDesc store).drop 1).take n).map transformArticle := by
    show ((dbList store Where.empty true (n + 1)).drop 1).map transformArticle = _
    unfold dbList
    rw [hfilter]
    show (((sortByPublishedDesc store).take (n + 1)).drop 1).map transformArticle
        = _
    rw [Nat.add_comm n 1, ← List.take_drop 1 n (sortByPublishedDesc store)]
  have hlen : (getTrendingArticles false store n).length
      = min n (store.length - 1) := by
    rw [heq, List.length_map, List.length_take, List.length_drop,
      sortByPublishedDesc, List.length_insertionSort]
  refine ⟨heq, hlen, ?_, ?_⟩
  · intro hlt
    rw [← List.length_eq_zero, hlen]
    omega
  · intro top rest hsort r hr
    have hmem : r ∈ sortByPublishedDesc store := by
      rw [sortByPublishedDesc]
      exact (List.mem_insertionSort _).2 hr
    rw [hsort] at hmem
    have hsorted : List.Sorted pubDesc (top :: rest) := by
      rw [← hsort, sortByPublishedDesc]
      exact List.sorted_insertionSort pubDesc store
    rw [List.mem_cons] at hmem
    rcases hmem with rfl | hmem
    · exact le_refl _
    · exact List.rel_of_sorted_cons hsorted r hmem

/-- Witness for C8: a 4-row store with `limit` 3, and a 1-row store. -/
theorem getTrendingArticles_c8_witness :
    (getTrendingArticles false [artA, artB, artC, artD] 3).length = 3
    ∧ getTrendingArticles false [artA] 3 = []
    ∧ pubDesc artD artA :=
  ⟨((getTrendingArticles_c8 [artA, artB, artC, artD] 3).2.1).trans (by decide),
   (getTrendingArticles_c8 [artA] 3).2.2.1 (by decide),
   (getTrendingArticles_c8 [artA, artB, artC, artD] 3).2.2.2 artD
     [artC, artA, artB] (by decide) artA (by decide)⟩

/-- C9: `getCategories` returns all categories ordered by name
ascending, and each field is normalized independently: the dual-keyed
fields fall back from the camelCase key to the snake_case counterpart
when the former is absent, while id/name/color are copied directly. -/
theorem getCategories_c9 (cstore : List DbCategory) :
    getCategories false cstore
      = (List.insertionSort nameAsc cstore).map normalizeCategory
    ∧ List.Sorted (fun a b : Category => a.name.data ≤ b.name.data)
        (getCategories false cstore)
    ∧ (∀ cat : DbCategory, cat.userId = none →
        (normalizeCategory cat).userId = cat.user_id)
    ∧ (∀ cat : DbCategory, cat.createdAt = none →
        (normalizeCategory cat).createdAt = cat.created_at)
    ∧ (∀ cat : DbCategory,
        (normalizeCategory cat).id = cat.id
        ∧ (normalizeCategory cat).name = cat.name
        ∧ (normalizeCategory cat).color = cat.color) := by
  refine ⟨rfl, ?_, ?_, ?_, fun _ => ⟨rfl, rfl, rfl⟩⟩
  · show List.Sorted _ ((dbListCategories cstore).map normalizeCategory)
    rw [dbListCategories]
    exact List.pairwise_map.2 (List.sorted_insertionSort nameAsc cstore)
  · intro cat h
    show jsOrOO cat.userId cat.user_id = cat.user_id
    rw [h]
    rfl
  · intro cat h
    show jsOrOO cat.createdAt cat.created_at = cat.created_at
    rw [h]
    rfl

def catX : DbCategory :=
  { id := "ai", name := "AI", color := "#111", description := none,
    userId := none, user_id := some "u7", createdAt := none,
    created_at := some "t9" }

/-- Witness for C9: snake_case fallback on a concrete row. -/
theorem getCategories_c9_witness :
    (normalizeCategory catX).userId = some "u7"
    ∧ (normalizeCategory catX).createdAt = some "t9" :=
  ⟨(getCategories_c9 []).2.2.1 catX rfl, (getCategories_c9 []).2.2.2.1 catX rfl⟩

end BlogCms
